import Mathlib

/-!
# Verification of the eye-overlay widget position/physics controller

Shallow embedding, over exact rationals, of the position/physics controller and
gaze-driven repositioning policy of the eye-overlay repository:

* the PiP widget component (`meet-pip`, in `src/unnamed/part_000`): viewport
  bounds (`getViewportBounds`), position clamping (`clampPosition`), the physics
  step (`updatePhysics`), drag handlers (`handleDragMove`, `handleDragEnd`,
  `handleDragStart`), the anchor-side coordinate remap of the side-change
  effect, and the zone reported to the parent (`updateDOM` / `handleDragEnd`);
* the eye tracker (`src/components/eye-tracker.tsx`): the gaze dead-zone
  classifier, the per-frame detection loop's failure handling, and the
  cursor-entry edge-detection policy with its 150 ms debounce.

JavaScript numbers are modelled as exact rationals; numeric literals from the
source (`0.88`, `0.05`, `16.67`, ...) are carried over as the corresponding
rationals.
-/

namespace EyeOverlay

/-- Anchor / zone side (the TypeScript union `"left" | "right"`). -/
inductive Side where
  | left
  | right
deriving DecidableEq

/-- A 2D vector / point `{x, y}` with rational coordinates. -/
structure Vec2 where
  x : ℚ
  y : ℚ
deriving DecidableEq

/-- The legal-position rectangle `{minX, maxX, minY, maxY}`. -/
structure Bounds where
  minX : ℚ
  maxX : ℚ
  minY : ℚ
  maxY : ℚ
deriving DecidableEq

/-! ## Physics constants (source lines 54-59) -/

/-- `FRICTION = 0.88` — velocity damping per frame. -/
def FRICTION : ℚ := 22 / 25

/-- `BOUNCE_DAMPING = 0.3` — bounce damping at boundaries. -/
def BOUNCE_DAMPING : ℚ := 3 / 10

/-- `VIEWPORT_PADDING = 24` — padding from viewport edges in pixels. -/
def VIEWPORT_PADDING : ℚ := 24

/-- `MAX_VELOCITY = 15` — maximum velocity cap per axis. -/
def MAX_VELOCITY : ℚ := 15

/-- `EYE_TRACKING_SPRING = 0.08` — spring constant toward the target. -/
def EYE_TRACKING_SPRING : ℚ := 2 / 25

/-- `SPRING_DAMPING = 0.85` — extra damping applied in spring mode. -/
def SPRING_DAMPING : ℚ := 17 / 20

/-! ## Bounds calculator (`getViewportBounds`, source lines 101-135) -/

/-- Transcription of `getViewportBounds`: legal position rectangle from the
anchor side, current widget dimensions and the live viewport size. -/
def getViewportBounds (side : Side) (width height viewportWidth viewportHeight : ℚ) :
    Bounds :=
  match side with
  | .left =>
    { minX := 0
      maxX := viewportWidth - width - VIEWPORT_PADDING * 2
      minY := VIEWPORT_PADDING + height / 2 - viewportHeight / 2
      maxY := viewportHeight / 2 - VIEWPORT_PADDING - height / 2 }
  | .right =>
    { minX := -(viewportWidth - VIEWPORT_PADDING * 2 - width)
      maxX := 0
      minY := VIEWPORT_PADDING + height / 2 - viewportHeight / 2
      maxY := viewportHeight / 2 - VIEWPORT_PADDING - height / 2 }

/-- The §4.3 bounds formulas exactly as the spec words them (second definition,
written from the spec, to be compared with `getViewportBounds`): anchored left,
`minX = 0`, `maxX = viewportWidth − width − 2×padding`; anchored right,
`maxX = 0`, `minX = −(viewportWidth − 2×padding − width)`; for both sides
`minY = padding + height/2 − viewportHeight/2` and
`maxY = viewportHeight/2 − padding − height/2`, with padding 24. -/
def boundsSpec (side : Side) (width height viewportWidth viewportHeight : ℚ) : Bounds :=
  let padding : ℚ := 24
  match side with
  | .left =>
    { minX := 0
      maxX := viewportWidth - width - 2 * padding
      minY := padding + height / 2 - viewportHeight / 2
      maxY := viewportHeight / 2 - padding - height / 2 }
  | .right =>
    { minX := -(viewportWidth - 2 * padding - width)
      maxX := 0
      minY := padding + height / 2 - viewportHeight / 2
      maxY := viewportHeight / 2 - padding - height / 2 }

/-- Membership in a bounds rectangle: `minX ≤ x ≤ maxX ∧ minY ≤ y ≤ maxY`. -/
def inBounds (b : Bounds) (p : Vec2) : Prop :=
  b.minX ≤ p.x ∧ p.x ≤ b.maxX ∧ b.minY ≤ p.y ∧ p.y ≤ b.maxY

instance (b : Bounds) (p : Vec2) : Decidable (inBounds b p) := by
  unfold inBounds; infer_instance

/-- Transcription of `clampPosition` (source lines 138-144). -/
def clampPosition (b : Bounds) (pos : Vec2) : Vec2 :=
  { x := max b.minX (min b.maxX pos.x)
    y := max b.minY (min b.maxY pos.y) }

/-! ## Anchor-side coordinate remap (side-change effect, source lines 595-628) -/

/-- Absolute screen X of the widget's left edge from the stored position,
as computed by the side-change effect (lines 601-608). -/
def toAbsoluteX (side : Side) (posX width viewportWidth : ℚ) : ℚ :=
  match side with
  | .left => VIEWPORT_PADDING + posX
  | .right => viewportWidth - VIEWPORT_PADDING - width + posX

/-- Stored position under a given anchor convention from the absolute screen X,
as computed by the side-change effect (lines 611-620). -/
def fromAbsoluteX (side : Side) (absX width viewportWidth : ℚ) : ℚ :=
  match side with
  | .left => absX - VIEWPORT_PADDING
  | .right => absX - viewportWidth + VIEWPORT_PADDING + width

/-- The full remap used on an anchor-side change: stored position under the old
convention to stored position under the new convention. -/
def remapX (oldSide newSide : Side) (posX width viewportWidth : ℚ) : ℚ :=
  fromAbsoluteX newSide (toAbsoluteX oldSide posX width viewportWidth) width viewportWidth

/-! ## Gaze dead-zone classifier (`detectFace`, eye-tracker lines 352-362) -/

/-- `centerThreshold = 0.05` — dead-zone half-width around the midpoint. -/
def centerThreshold : ℚ := 1 / 20

/-- Transcription of the gaze classification in `detectFace`: below
`0.5 − centerThreshold` is left, above `0.5 + centerThreshold` is right,
otherwise `null` (center). -/
def classifyGaze (normalizedX : ℚ) : Option Side :=
  if normalizedX < 1 / 2 - centerThreshold then some .left
  else if 1 / 2 + centerThreshold < normalizedX then some .right
  else none

/-! ## Per-frame detection loop (`detectFace`, eye-tracker lines 295-381)

One iteration of the `detect` loop, abstracted over what the external detector
produced for this frame.  The loop body either skips (video not ready, detector
threw, no face, iris keypoints missing) or classifies the derived normalized
gaze x.  In every case it reschedules itself for the next frame. -/

/-- Outcome of the external face detector for one video frame. -/
inductive FrameResult where
  | notReady
  | detectorThrows
  | noFace
  | faceNoIris
  | face (normalizedX : ℚ)
deriving DecidableEq

/-- One iteration of the detection loop: given the gaze side currently stored in
state and the frame outcome, returns the gaze side stored after the frame and
whether the loop schedules the next frame. -/
def detectStep (prevGaze : Option Side) (r : FrameResult) : Option Side × Bool :=
  match r with
  | .notReady => (prevGaze, true)
  | .detectorThrows => (prevGaze, true)
  | .noFace => (prevGaze, true)
  | .faceNoIris => (prevGaze, true)
  | .face normalizedX => (classifyGaze normalizedX, true)

/-! ## Zone reported to the parent (`updateDOM` lines 174-221, `handleDragEnd`
lines 498-531) -/

/-- Absolute screen X of the PiP center, as computed identically in `updateDOM`
and `handleDragEnd`. -/
def pipCenterX (side : Side) (posX pipWidth viewportWidth : ℚ) : ℚ :=
  match side with
  | .left => VIEWPORT_PADDING + pipWidth / 2 + posX
  | .right => viewportWidth - VIEWPORT_PADDING - pipWidth / 2 + posX

/-- The horizontal side reported to the parent: left/right thirds by the PiP
center, and the current anchor side when the center lies in the middle third.
This logic appears verbatim both in `updateDOM` (lines 186-194) and in
`handleDragEnd` (lines 510-518). -/
def reportedSide (side : Side) (posX pipWidth viewportWidth : ℚ) : Side :=
  if pipCenterX side posX pipWidth viewportWidth < viewportWidth / 3 then .left
  else if viewportWidth * 2 / 3 < pipCenterX side posX pipWidth viewportWidth then .right
  else side

/-- The side reported by `handleDragEnd`, which first clamps the position. -/
def dragEndReportedSide (b : Bounds) (side : Side) (pos : Vec2)
    (pipWidth viewportWidth : ℚ) : Side :=
  reportedSide side (clampPosition b pos).x pipWidth viewportWidth

/-! ## Physics engine (`updatePhysics`, source lines 225-312)

The mutable refs are collected into one state record.  `sched` models whether
`animationFrameRef` holds a scheduled next frame at the end of the step
(lines 302-311). -/

/-- Physics engine state: position, velocity, optional spring target, and
whether a next animation frame is scheduled. -/
structure PhysState where
  pos : Vec2
  vel : Vec2
  target : Option Vec2
  sched : Bool
deriving DecidableEq

/-- Velocity after spring force and spring damping (lines 237-242):
`(v + d * EYE_TRACKING_SPRING) * SPRING_DAMPING` for displacement `d`. -/
def springVel (d v : ℚ) : ℚ :=
  (v + d * EYE_TRACKING_SPRING) * SPRING_DAMPING

/-- The snap-to-target test of lines 245: both displacements below 1 and both
spring-damped velocity components below 0.3. -/
def SnapCond (u : PhysState) : Prop :=
  match u.target with
  | some t =>
      |t.x - u.pos.x| < 1 ∧ |t.y - u.pos.y| < 1 ∧
      |springVel (t.x - u.pos.x) u.vel.x| < 3 / 10 ∧
      |springVel (t.y - u.pos.y) u.vel.y| < 3 / 10
  | none => False

instance (u : PhysState) : Decidable (SnapCond u) := by
  unfold SnapCond
  cases u.target <;> infer_instance

/-- Position after the spring-mode block (lines 230-250): target on snap,
otherwise unchanged. -/
def springPos (u : PhysState) : Vec2 :=
  match u.target with
  | some t => if SnapCond u then t else u.pos
  | none => u.pos

/-- Velocity after the spring-mode block (lines 230-250): zero on snap, the
spring-damped velocity otherwise, and the incoming velocity when no target. -/
def springVelVec (u : PhysState) : Vec2 :=
  match u.target with
  | some t =>
      if SnapCond u then ⟨0, 0⟩
      else ⟨springVel (t.x - u.pos.x) u.vel.x, springVel (t.y - u.pos.y) u.vel.y⟩
  | none => u.vel

/-- Target after the spring-mode block: cleared on snap (line 248). -/
def springTarget (u : PhysState) : Option Vec2 :=
  match u.target with
  | some t => if SnapCond u then none else some t
  | none => none

/-- Velocity clamp of lines 261-262: `max(-MAX, min(MAX, v))`. -/
def clampVelocity (v : ℚ) : ℚ :=
  max (-MAX_VELOCITY) (min MAX_VELOCITY v)

/-- One axis of the boundary check of lines 268-286: clamp the position to
`[lo, hi]` and on contact negate and damp the velocity. -/
def bounceAxis (lo hi p v : ℚ) : ℚ × ℚ :=
  if p < lo then (lo, v * (-BOUNCE_DAMPING))
  else if hi < p then (hi, v * (-BOUNCE_DAMPING))
  else (p, v)

/-- Lines 252-311 of `updatePhysics` after the spring-mode block: integrate
position, apply friction, clamp velocity, bounce at the bounds, zero the
velocity when the stop condition holds (line 289), and decide whether the next
frame is scheduled (lines 302-311). -/
def integrateAndClamp (b : Bounds) (pos vel : Vec2) (target : Option Vec2) :
    PhysState :=
  let px := pos.x + vel.x
  let py := pos.y + vel.y
  let fvx := clampVelocity (vel.x * FRICTION)
  let fvy := clampVelocity (vel.y * FRICTION)
  let bx := bounceAxis b.minX b.maxX px fvx
  let bb := bounceAxis b.minY b.maxY py fvy
  let stopped := |bx.2| < 1 / 20 ∧ |bb.2| < 1 / 20 ∧ target = none
  let vx := if stopped then 0 else bx.2
  let vy := if stopped then 0 else bb.2
  { pos := ⟨bx.1, bb.1⟩
    vel := ⟨vx, vy⟩
    target := target
    sched :=
      if (1 / 200 : ℚ) < |vx| ∨ (1 / 200 : ℚ) < |vy| ∨ target.isSome = true
      then true else false }

/-- Transcription of one `updatePhysics` step (source lines 225-312). -/
def updatePhysics (b : Bounds) (u : PhysState) : PhysState :=
  integrateAndClamp b (springPos u) (springVelVec u) (springTarget u)

/-! ## Drag handlers (source lines 392-545) -/

/-- The fling velocity stored on each drag move (lines 452-463):
`dt = max(1, elapsedMs) / 16.67`, velocity `(delta / dt) * 0.25` per axis. -/
def flingVelocity (dx dy elapsedMs : ℚ) : Vec2 :=
  let dt := max 1 elapsedMs / (1667 / 100)
  ⟨dx / dt * (1 / 4), dy / dt * (1 / 4)⟩

/-- Effect of `handleDragStart` (lines 392-434) on the physics state: cancel
any scheduled frame, zero the velocity, clear the target. -/
def handleDragStartState (u : PhysState) : PhysState :=
  { pos := u.pos, vel := ⟨0, 0⟩, target := none, sched := false }

/-- Effect of `handleResizeStart` (lines 323-353) on the physics state: same
cancellation as drag start. -/
def handleResizeStartState (u : PhysState) : PhysState :=
  { pos := u.pos, vel := ⟨0, 0⟩, target := none, sched := false }

/-- Effect of one `handleDragMove` (lines 436-472) on the physics state: the
requested position (drag-start offset plus pointer delta) is clamped into the
bounds, and the fling velocity estimate is stored. -/
def handleDragMoveState (b : Bounds) (u : PhysState) (requested : Vec2)
    (dx dy elapsedMs : ℚ) : PhysState :=
  { u with pos := clampPosition b requested, vel := flingVelocity dx dy elapsedMs }

/-- Effect of `handleDragEnd` (lines 474-545) on the physics state: clamp the
final position and start physics when the fling velocity is non-negligible or
the position was clamped. -/
def handleDragEndState (b : Bounds) (u : PhysState) : PhysState :=
  let clamped := clampPosition b u.pos
  { u with
    pos := clamped
    sched := decide ((1 / 20 : ℚ) < |u.vel.x| ∨ (1 / 20 : ℚ) < |u.vel.y| ∨
      clamped ≠ u.pos) }

/-- Positions reachable through any sequence of drag moves, drag releases and
physics steps, starting from the mount-time clamped position (lines 686-698). -/
inductive Reach (b : Bounds) : PhysState → Prop where
  | init (p v : Vec2) (tg : Option Vec2) (sc : Bool) :
      Reach b ⟨clampPosition b p, v, tg, sc⟩
  | drag {s : PhysState} (hs : Reach b s) (requested : Vec2) (dx dy elapsedMs : ℚ) :
      Reach b (handleDragMoveState b s requested dx dy elapsedMs)
  | release {s : PhysState} (hs : Reach b s) :
      Reach b (handleDragEndState b s)
  | phys {s : PhysState} (hs : Reach b s) :
      Reach b (updatePhysics b s)

/-! ## Cursor-entry repositioning policy (`handleMouseMove`, eye-tracker
lines 47-143)

Model of the edge-detection and debounce logic under the claim's premise that
tracking is active and no suppression condition holds (the `if` of lines
90-95 passes).  `prev` is `prevCursorSideRef` (initially `null`), `pending`
is the deadline of the single outstanding debounce timer
(`cursorMoveDebounceRef`), and `count` counts the commands issued (the
`setTargetVertical`/`setBallSide` calls of lines 125-126).  A move sample first
lets a due timer fire (single-threaded event loop), then runs the handler:
on the edge where the cursor's zone becomes the widget's side, any existing
debounce is cleared and a fresh 150 ms one is scheduled (lines 96-129);
`prev` is updated on every sample (line 133). -/

/-- Horizontal cursor zone by viewport thirds (eye-tracker lines 62-69). -/
def cursorZoneH (clientX screenWidth : ℚ) : Option Side :=
  if clientX < screenWidth / 3 then some .left
  else if screenWidth * 2 / 3 < clientX then some .right
  else none

/-- `150` — the debounce interval in milliseconds (line 128). -/
def DEBOUNCE_MS : ℚ := 150

/-- State of the cursor-entry policy: previous cursor side, outstanding
debounce deadline, and number of commands issued so far. -/
structure PolicyState where
  prev : Option Side
  pending : Option ℚ
  count : ℕ
deriving DecidableEq

/-- The policy state before any mouse-move sample. -/
def initPolicy : PolicyState :=
  { prev := none, pending := none, count := 0 }

/-- Let the outstanding debounce timer fire if its deadline has passed by time
`t`: the command is issued and the timer cleared (lines 108-128). -/
def fireIfDue (t : ℚ) (s : PolicyState) : PolicyState :=
  match s.pending with
  | some d => if d ≤ t then { s with pending := none, count := s.count + 1 } else s
  | none => s

/-- One mouse-move sample at time `t` with cursor zone `z`, for widget side
`pip`, with no suppression condition active. -/
def moveSample (pip : Side) (s : PolicyState) (t : ℚ) (z : Option Side) :
    PolicyState :=
  let s1 := fireIfDue t s
  let s2 :=
    if s1.prev ≠ some pip ∧ z = some pip then
      { s1 with pending := some (t + DEBOUNCE_MS) }
    else s1
  { s2 with prev := z }

/-- Run a list of timed mouse-move samples through the policy. -/
def runTrace (pip : Side) (s : PolicyState) : List (ℚ × Option Side) → PolicyState
  | [] => s
  | e :: es => runTrace pip (moveSample pip s e.1 e.2) es

/-- Total number of commands the trace leads to: commands already issued plus
the one an outstanding debounce timer will issue when it fires. -/
def finalCount (s : PolicyState) : ℕ :=
  s.count + (if s.pending.isSome then 1 else 0)

/-! ## Analysis artifacts for the physics proofs -/

/-- Per-axis spring-mode displacement update: with displacement-to-target error
`e = pos − target` and stored velocity `v`, one unobstructed non-snap spring
step moves the error to `e + springVel (−e) v = (233/250)·e + (17/20)·v`. -/
def linE (e v : ℚ) : ℚ := 233 / 250 * e + 17 / 20 * v

/-- Per-axis spring-mode velocity update: the stored velocity after friction is
`springVel (−e) v * FRICTION = (187/250)·v − (187/3125)·e`. -/
def linV (e v : ℚ) : ℚ := 187 / 250 * v - 187 / 3125 * e

/-- Quadratic Lyapunov function for the spring recursion `(e, v) ↦
(linE e v, linV e v)`: positive definite and contracted by factor `19/25` per
step. -/
def lyap (e v : ℚ) : ℚ :=
  6 / 5 * e ^ 2 + 369 / 100 * (e * v) + 426 / 25 * v ^ 2

/-- Terminal spring state: position exactly at the target, velocity zero,
no pending target. -/
def Terminal (t : Vec2) (u : PhysState) : Prop :=
  u.pos = t ∧ u.vel = ⟨0, 0⟩ ∧ u.target = none

instance (t : Vec2) (u : PhysState) : Decidable (Terminal t u) := by
  unfold Terminal; infer_instance

/-- The step from `u` is unobstructed: the velocity cap does not engage and the
integrated position stays inside the bounds, so neither the clamp of lines
261-262 nor the bounce of lines 268-286 alters anything. -/
def StepClean (b : Bounds) (u : PhysState) : Prop :=
  |(springVelVec u).x * FRICTION| ≤ MAX_VELOCITY ∧
  |(springVelVec u).y * FRICTION| ≤ MAX_VELOCITY ∧
  b.minX ≤ (springPos u).x + (springVelVec u).x ∧
  (springPos u).x + (springVelVec u).x ≤ b.maxX ∧
  b.minY ≤ (springPos u).y + (springVelVec u).y ∧
  (springPos u).y + (springVelVec u).y ≤ b.maxY

instance (b : Bounds) (u : PhysState) : Decidable (StepClean b u) := by
  unfold StepClean; infer_instance

/-- The drag-release state of the §8 scenario: fling velocity `(8, 0)`, no
target, physics running. -/
def flingDemoState : PhysState :=
  { pos := ⟨0, 0⟩, vel := ⟨8, 0⟩, target := none, sched := true }

/-- The §8 scenario bounds: viewport 1200×800, widget 320×280, anchored left. -/
def demoBounds : Bounds :=
  getViewportBounds .left 320 280 1200 800

/-! ## Helper lemmas about clamping, bouncing and one physics step -/

lemma clampPosition_inBounds {b : Bounds} (hx : b.minX ≤ b.maxX)
    (hy : b.minY ≤ b.maxY) (p : Vec2) : inBounds b (clampPosition b p) :=
  ⟨le_max_left _ _, max_le hx (min_le_left _ _),
   le_max_left _ _, max_le hy (min_le_left _ _)⟩

lemma bounceAxis_fst_mem {lo hi : ℚ} (h : lo ≤ hi) (p v : ℚ) :
    lo ≤ (bounceAxis lo hi p v).1 ∧ (bounceAxis lo hi p v).1 ≤ hi := by
  unfold bounceAxis
  split_ifs with h1 h2
  · exact ⟨le_refl lo, h⟩
  · exact ⟨h, le_refl hi⟩
  · exact ⟨not_lt.mp h1, not_lt.mp h2⟩

lemma bounceAxis_snd_abs_le (lo hi p v : ℚ) :
    |(bounceAxis lo hi p v).2| ≤ |v| := by
  unfold bounceAxis
  split_ifs with h1 h2
  · show |v * (-BOUNCE_DAMPING)| ≤ |v|
    rw [abs_mul, show |(-BOUNCE_DAMPING : ℚ)| = 3 / 10 by norm_num [BOUNCE_DAMPING]]
    nlinarith [abs_nonneg v]
  · show |v * (-BOUNCE_DAMPING)| ≤ |v|
    rw [abs_mul, show |(-BOUNCE_DAMPING : ℚ)| = 3 / 10 by norm_num [BOUNCE_DAMPING]]
    nlinarith [abs_nonneg v]
  · exact le_refl _

lemma bounceAxis_id {lo hi p : ℚ} (h1 : lo ≤ p) (h2 : p ≤ hi) (v : ℚ) :
    bounceAxis lo hi p v = (p, v) := by
  unfold bounceAxis
  rw [if_neg (not_lt.mpr h1), if_neg (not_lt.mpr h2)]

lemma abs_clampVelocity_le_max (v : ℚ) : |clampVelocity v| ≤ MAX_VELOCITY := by
  unfold clampVelocity
  rw [abs_le]
  exact ⟨le_max_left _ _, max_le (by norm_num [MAX_VELOCITY]) (min_le_left _ _)⟩

lemma abs_clampVelocity_le_abs (v : ℚ) : |clampVelocity v| ≤ |v| := by
  unfold clampVelocity MAX_VELOCITY
  rcases le_total v (-15 : ℚ) with h | h
  · rw [min_eq_right (by linarith), max_eq_left h,
      abs_of_nonpos (by norm_num : (-15 : ℚ) ≤ 0), abs_of_nonpos (by linarith)]
    linarith
  · rcases le_total (15 : ℚ) v with h2 | h2
    · rw [min_eq_left h2, max_eq_right (by norm_num : (-15 : ℚ) ≤ 15),
        abs_of_nonneg (by norm_num : (0 : ℚ) ≤ 15), abs_of_nonneg (by linarith)]
      linarith
    · rw [min_eq_right h2, max_eq_right h]

lemma clampVelocity_id {v : ℚ} (h : |v| ≤ MAX_VELOCITY) : clampVelocity v = v := by
  unfold clampVelocity
  rw [abs_le] at h
  rw [min_eq_right h.2, max_eq_right h.1]

lemma iac_pos_inBounds {b : Bounds} (hx : b.minX ≤ b.maxX) (hy : b.minY ≤ b.maxY)
    (pos vel : Vec2) (tg : Option Vec2) :
    inBounds b (integrateAndClamp b pos vel tg).pos := by
  simp only [integrateAndClamp, inBounds]
  have h1 := bounceAxis_fst_mem hx (pos.x + vel.x) (clampVelocity (vel.x * FRICTION))
  have h2 := bounceAxis_fst_mem hy (pos.y + vel.y) (clampVelocity (vel.y * FRICTION))
  exact ⟨h1.1, h1.2, h2.1, h2.2⟩

lemma updatePhysics_pos_inBounds {b : Bounds} (hx : b.minX ≤ b.maxX)
    (hy : b.minY ≤ b.maxY) (u : PhysState) :
    inBounds b (updatePhysics b u).pos :=
  iac_pos_inBounds hx hy _ _ _

lemma springPos_of_none {u : PhysState} (h : u.target = none) :
    springPos u = u.pos := by
  simp [springPos, h]

lemma springVelVec_of_none {u : PhysState} (h : u.target = none) :
    springVelVec u = u.vel := by
  simp [springVelVec, h]

lemma springTarget_of_none {u : PhysState} (h : u.target = none) :
    springTarget u = none := by
  simp [springTarget, h]

lemma iac_target_eq (b : Bounds) (pos vel : Vec2) (tg : Option Vec2) :
    (integrateAndClamp b pos vel tg).target = tg := rfl

lemma iac_vel_cap (b : Bounds) (pos vel : Vec2) (tg : Option Vec2) :
    |(integrateAndClamp b pos vel tg).vel.x| ≤ MAX_VELOCITY ∧
    |(integrateAndClamp b pos vel tg).vel.y| ≤ MAX_VELOCITY := by
  simp only [integrateAndClamp]
  constructor <;> split_ifs
  · norm_num [MAX_VELOCITY]
  · exact le_trans (bounceAxis_snd_abs_le _ _ _ _) (abs_clampVelocity_le_max _)
  · norm_num [MAX_VELOCITY]
  · exact le_trans (bounceAxis_snd_abs_le _ _ _ _) (abs_clampVelocity_le_max _)

lemma iac_vel_fric (b : Bounds) (pos vel : Vec2) (tg : Option Vec2) :
    |(integrateAndClamp b pos vel tg).vel.x| ≤ FRICTION * |vel.x| ∧
    |(integrateAndClamp b pos vel tg).vel.y| ≤ FRICTION * |vel.y| := by
  have key : ∀ lo hi p v : ℚ,
      |(bounceAxis lo hi p (clampVelocity (v * FRICTION))).2| ≤ FRICTION * |v| := by
    intro lo hi p v
    have h1 := (bounceAxis_snd_abs_le lo hi p (clampVelocity (v * FRICTION))).trans
      (abs_clampVelocity_le_abs _)
    calc |(bounceAxis lo hi p (clampVelocity (v * FRICTION))).2| ≤ |v * FRICTION| := h1
      _ = FRICTION * |v| := by
          rw [abs_mul, show |FRICTION| = FRICTION by norm_num [FRICTION]]
          ring
  have hzero : ∀ v : ℚ, |(0 : ℚ)| ≤ FRICTION * |v| := by
    intro v
    rw [abs_zero]
    exact mul_nonneg (by norm_num [FRICTION]) (abs_nonneg _)
  simp only [integrateAndClamp]
  constructor <;> split_ifs
  · exact hzero _
  · exact key _ _ _ _
  · exact hzero _
  · exact key _ _ _ _

lemma iac_vel_zero (b : Bounds) (pos : Vec2) (tg : Option Vec2) :
    (integrateAndClamp b pos ⟨0, 0⟩ tg).vel = ⟨0, 0⟩ := by
  have hx : |(integrateAndClamp b pos ⟨0, 0⟩ tg).vel.x| ≤ 0 := by
    have := (iac_vel_fric b pos ⟨0, 0⟩ tg).1
    simpa using this
  have hy : |(integrateAndClamp b pos ⟨0, 0⟩ tg).vel.y| ≤ 0 := by
    have := (iac_vel_fric b pos ⟨0, 0⟩ tg).2
    simpa using this
  have ex : (integrateAndClamp b pos ⟨0, 0⟩ tg).vel.x = 0 :=
    abs_eq_zero.mp (le_antisymm hx (abs_nonneg _))
  have ey : (integrateAndClamp b pos ⟨0, 0⟩ tg).vel.y = 0 :=
    abs_eq_zero.mp (le_antisymm hy (abs_nonneg _))
  calc (integrateAndClamp b pos ⟨0, 0⟩ tg).vel
      = ⟨(integrateAndClamp b pos ⟨0, 0⟩ tg).vel.x,
         (integrateAndClamp b pos ⟨0, 0⟩ tg).vel.y⟩ := rfl
    _ = ⟨0, 0⟩ := by rw [ex, ey]

lemma SnapCond_target {u : PhysState} (hs : SnapCond u) :
    ∃ t, u.target = some t := by
  cases htg : u.target with
  | none =>
      exfalso
      simp only [SnapCond, htg] at hs
  | some t => exact ⟨t, rfl⟩

lemma updatePhysics_vel_snap {b : Bounds} {u : PhysState} (hs : SnapCond u) :
    (updatePhysics b u).vel = ⟨0, 0⟩ := by
  obtain ⟨t, ht⟩ := SnapCond_target hs
  have hvel : springVelVec u = ⟨0, 0⟩ := by
    simp only [springVelVec, ht]
    rw [if_pos hs]
  show (integrateAndClamp b (springPos u) (springVelVec u) (springTarget u)).vel = ⟨0, 0⟩
  rw [hvel]
  exact iac_vel_zero _ _ _

/-! ## C1: bounds containment for all reachable positions -/

/-- C1: for valid widget dimensions and viewport sizes (widget plus padding on
both sides fits in the viewport) and either anchor side, every position
reachable by any sequence of drag moves, drag releases and physics steps lies
inside the rectangle computed by `getViewportBounds`. -/
theorem bounds_containment (side : Side) (w h vw vh : ℚ)
    (hw : w + 2 * VIEWPORT_PADDING ≤ vw) (hh : h + 2 * VIEWPORT_PADDING ≤ vh)
    (s : PhysState) (hs : Reach (getViewportBounds side w h vw vh) s) :
    inBounds (getViewportBounds side w h vw vh) s.pos := by
  have hx : (getViewportBounds side w h vw vh).minX ≤
      (getViewportBounds side w h vw vh).maxX := by
    cases side <;> simp only [getViewportBounds] <;> linarith
  have hy : (getViewportBounds side w h vw vh).minY ≤
      (getViewportBounds side w h vw vh).maxY := by
    cases side <;> simp only [getViewportBounds] <;> linarith
  induction hs with
  | init p v tg sc => exact clampPosition_inBounds hx hy p
  | drag hs requested dx dy elapsedMs ih =>
      exact clampPosition_inBounds hx hy requested
  | release hs ih =>
      exact clampPosition_inBounds hx hy _
  | phys hs ih =>
      exact updatePhysics_pos_inBounds hx hy _

/-- Witness for C1 at the §8 geometry, for the mount-time clamped state. -/
theorem bounds_containment_witness :
    inBounds (getViewportBounds .left 320 280 1200 800)
      (clampPosition (getViewportBounds .left 320 280 1200 800) ⟨0, 0⟩) :=
  bounds_containment .left 320 280 1200 800
    (by norm_num [VIEWPORT_PADDING]) (by norm_num [VIEWPORT_PADDING])
    _ (Reach.init ⟨0, 0⟩ ⟨0, 0⟩ none false)

/-! ## C2: the bounds calculator returns exactly the §4.3 rectangle -/

/-- C2: for every anchor side, widget dimensions and viewport size,
`getViewportBounds` returns exactly the rectangle of the §4.3 formulas
(`boundsSpec`), and in particular for viewport 1200×800, widget 320×280,
padding 24, anchor left it returns `minX = 0`, `maxX = 832`, `minY = −236`,
`maxY = 236`. -/
theorem bounds_calculator_formulas (side : Side) (w h vw vh : ℚ) :
    getViewportBounds side w h vw vh = boundsSpec side w h vw vh ∧
    getViewportBounds .left 320 280 1200 800 =
      { minX := 0, maxX := 832, minY := -236, maxY := 236 } := by
  constructor
  · cases side <;>
      simp only [getViewportBounds, boundsSpec, VIEWPORT_PADDING, Bounds.mk.injEq] <;>
      norm_num
  · norm_num [getViewportBounds, VIEWPORT_PADDING, Bounds.mk.injEq]

/-! ## C3: the anchor-side remap round-trips -/

/-- C3: converting a stored x position from anchor side `a` to side `b` (via
the absolute-screen-X remap used on an anchor-side change) and back again, with
width and viewport unchanged, returns the original position exactly. -/
theorem anchor_remap_roundtrip (a b : Side) (posX width viewportWidth : ℚ) :
    remapX b a (remapX a b posX width viewportWidth) width viewportWidth = posX := by
  cases a <;> cases b <;>
    simp only [remapX, toAbsoluteX, fromAbsoluteX, VIEWPORT_PADDING] <;> ring_nf

/-! ## C6: gaze dead-zone classification -/

/-- C6: the gaze classifier outputs left exactly when the normalized x is
below `0.5 − d`, right exactly when above `0.5 + d`, and null on the whole
dead-zone `[0.5 − d, 0.5 + d]`, with `d = centerThreshold = 0.05`; hence a
gaze x oscillating strictly inside the dead-zone only ever yields null. -/
theorem gaze_deadzone_classification (x : ℚ) :
    (x < 1 / 2 - centerThreshold → classifyGaze x = some .left) ∧
    (1 / 2 + centerThreshold < x → classifyGaze x = some .right) ∧
    (1 / 2 - centerThreshold ≤ x → x ≤ 1 / 2 + centerThreshold →
      classifyGaze x = none) ∧
    centerThreshold = 1 / 20 := by
  refine ⟨fun h => ?_, fun h => ?_, fun h1 h2 => ?_, rfl⟩
  · simp only [classifyGaze]
    rw [if_pos h]
  · have h1 : ¬ x < 1 / 2 - centerThreshold := by
      unfold centerThreshold at *
      linarith
    simp only [classifyGaze]
    rw [if_neg h1, if_pos h]
  · simp only [classifyGaze]
    rw [if_neg (not_lt.mpr h1), if_neg (not_lt.mpr h2)]

/-- Witness for C6 at concrete inputs on each side of the dead-zone. -/
theorem gaze_deadzone_classification_witness :
    classifyGaze (3 / 10) = some .left ∧ classifyGaze (1 / 2) = none ∧
    classifyGaze (7 / 10) = some .right :=
  ⟨(gaze_deadzone_classification (3 / 10)).1 (by norm_num [centerThreshold]),
   (gaze_deadzone_classification (1 / 2)).2.2.1 (by norm_num [centerThreshold])
     (by norm_num [centerThreshold]),
   (gaze_deadzone_classification (7 / 10)).2.1 (by norm_num [centerThreshold])⟩

/-! ## C8: per-frame detector failure

The claim says a failing frame makes the classifier emit `null`.  The loop
does continue, but on a failing frame the stored gaze side is left unchanged
rather than set to `null` (the `setGazeSide` calls of lines 352-362 are simply
not reached), so a previously stored side survives a failing frame. -/

/-- Counterexample to C8 as stated: it is not true that every
detector-throw/no-face frame leaves the classifier output `null` — with
previous gaze `left`, a no-face frame keeps `left`. -/
theorem detector_failure_null_counterexample :
    ¬ (∀ (prevGaze : Option Side) (r : FrameResult),
        (r = .detectorThrows ∨ r = .noFace) →
        detectStep prevGaze r = (none, true)) := by
  intro hcl
  have h := hcl (some .left) .noFace (Or.inr rfl)
  exact absurd h (by decide)

/-- C8 (amended): on every frame where the video is not ready, the external
detector throws, no face is reported, or the iris keypoints are missing, the
stored gaze side is left unchanged (not set to null), and the detection loop
always schedules the next frame without aborting. -/
theorem detector_failure_keeps_gaze (prevGaze : Option Side) (r : FrameResult) :
    ((r = .notReady ∨ r = .detectorThrows ∨ r = .noFace ∨ r = .faceNoIris) →
      detectStep prevGaze r = (prevGaze, true)) ∧
    (detectStep prevGaze r).2 = true := by
  constructor
  · rintro (rfl | rfl | rfl | rfl) <;> rfl
  · cases r <;> rfl

/-- Witness for C8 (amended) at a concrete failing frame. -/
theorem detector_failure_keeps_gaze_witness :
    detectStep (some .left) .noFace = (some .left, true) :=
  (detector_failure_keeps_gaze (some .left) .noFace).1 (Or.inr (Or.inr (Or.inl rfl)))

/-! ## Helper lemmas for settling (no target pending) -/

lemma rat_abs_def (a : ℚ) : |a| = if 0 ≤ a then a else -a := by
  rcases le_or_lt 0 a with h | h
  · rw [abs_of_nonneg h, if_pos h]
  · rw [abs_of_neg h, if_neg (not_le.mpr h)]

lemma updatePhysics_of_none {b : Bounds} {u : PhysState} (h : u.target = none) :
    updatePhysics b u = integrateAndClamp b u.pos u.vel none := by
  show integrateAndClamp b (springPos u) (springVelVec u) (springTarget u) = _
  rw [springPos_of_none h, springVelVec_of_none h, springTarget_of_none h]

lemma abs_mul_friction (v : ℚ) : |v * FRICTION| = FRICTION * |v| := by
  rw [abs_mul, show |FRICTION| = FRICTION from by norm_num [FRICTION]]
  ring

lemma iac_stop {b : Bounds} (pos vel : Vec2)
    (hx : FRICTION * |vel.x| < 1 / 20) (hy : FRICTION * |vel.y| < 1 / 20) :
    (integrateAndClamp b pos vel none).vel = ⟨0, 0⟩ ∧
    (integrateAndClamp b pos vel none).sched = false := by
  have hbx : |(bounceAxis b.minX b.maxX (pos.x + vel.x)
      (clampVelocity (vel.x * FRICTION))).2| < 1 / 20 := by
    calc |(bounceAxis b.minX b.maxX (pos.x + vel.x)
          (clampVelocity (vel.x * FRICTION))).2|
        ≤ |clampVelocity (vel.x * FRICTION)| := bounceAxis_snd_abs_le _ _ _ _
      _ ≤ |vel.x * FRICTION| := abs_clampVelocity_le_abs _
      _ = FRICTION * |vel.x| := abs_mul_friction vel.x
      _ < 1 / 20 := hx
  have hby : |(bounceAxis b.minY b.maxY (pos.y + vel.y)
      (clampVelocity (vel.y * FRICTION))).2| < 1 / 20 := by
    calc |(bounceAxis b.minY b.maxY (pos.y + vel.y)
          (clampVelocity (vel.y * FRICTION))).2|
        ≤ |clampVelocity (vel.y * FRICTION)| := bounceAxis_snd_abs_le _ _ _ _
      _ ≤ |vel.y * FRICTION| := abs_clampVelocity_le_abs _
      _ = FRICTION * |vel.y| := abs_mul_friction vel.y
      _ < 1 / 20 := hy
  have hc : |(bounceAxis b.minX b.maxX (pos.x + vel.x)
        (clampVelocity (vel.x * FRICTION))).2| < 1 / 20 ∧
      |(bounceAxis b.minY b.maxY (pos.y + vel.y)
        (clampVelocity (vel.y * FRICTION))).2| < 1 / 20 := ⟨hbx, hby⟩
  simp only [integrateAndClamp, eq_self_iff_true, and_true]
  rw [if_pos hc, if_pos hc]
  refine ⟨rfl, ?_⟩
  rw [if_neg]
  rintro (hcon | hcon | hcon)
  · norm_num at hcon
  · norm_num at hcon
  · simp at hcon

lemma step_none_vel_decay {b : Bounds} {u : PhysState} (h : u.target = none) :
    |(updatePhysics b u).vel.x| ≤ FRICTION * |u.vel.x| ∧
    |(updatePhysics b u).vel.y| ≤ FRICTION * |u.vel.y| := by
  rw [updatePhysics_of_none h]
  exact iac_vel_fric b u.pos u.vel none

lemma step_none_target {b : Bounds} {u : PhysState} (h : u.target = none) :
    (updatePhysics b u).target = none := by
  rw [updatePhysics_of_none h]
  rfl

lemma iter_target_none (b : Bounds) (s : PhysState) (h : s.target = none) :
    ∀ n, ((updatePhysics b)^[n] s).target = none := by
  intro n
  induction n with
  | zero => simpa using h
  | succ n ih =>
      rw [Function.iterate_succ_apply']
      exact step_none_target ih

lemma step_vel_cap (b : Bounds) (u : PhysState) :
    |(updatePhysics b u).vel.x| ≤ MAX_VELOCITY ∧
    |(updatePhysics b u).vel.y| ≤ MAX_VELOCITY :=
  iac_vel_cap b _ _ _

lemma iter_vel_bound (b : Bounds) (s : PhysState) (h : s.target = none) :
    ∀ n, |((updatePhysics b)^[n + 1] s).vel.x| ≤ FRICTION ^ n * MAX_VELOCITY ∧
      |((updatePhysics b)^[n + 1] s).vel.y| ≤ FRICTION ^ n * MAX_VELOCITY := by
  intro n
  induction n with
  | zero =>
      rw [pow_zero, one_mul]
      exact step_vel_cap b _
  | succ n ih =>
      have htg := iter_target_none b s h (n + 1)
      have hd := step_none_vel_decay (b := b) htg
      rw [Function.iterate_succ_apply']
      constructor
      · calc |(updatePhysics b ((updatePhysics b)^[n + 1] s)).vel.x|
            ≤ FRICTION * |((updatePhysics b)^[n + 1] s).vel.x| := hd.1
          _ ≤ FRICTION * (FRICTION ^ n * MAX_VELOCITY) :=
              mul_le_mul_of_nonneg_left ih.1 (by norm_num [FRICTION])
          _ = FRICTION ^ (n + 1) * MAX_VELOCITY := by ring
      · calc |(updatePhysics b ((updatePhysics b)^[n + 1] s)).vel.y|
            ≤ FRICTION * |((updatePhysics b)^[n + 1] s).vel.y| := hd.2
          _ ≤ FRICTION * (FRICTION ^ n * MAX_VELOCITY) :=
              mul_le_mul_of_nonneg_left ih.2 (by norm_num [FRICTION])
          _ = FRICTION ^ (n + 1) * MAX_VELOCITY := by ring

lemma step_absorb {b : Bounds} {u : PhysState} (h : u.target = none)
    (hv : u.vel = ⟨0, 0⟩) :
    (updatePhysics b u).vel = ⟨0, 0⟩ ∧ (updatePhysics b u).sched = false ∧
    (updatePhysics b u).target = none := by
  rw [updatePhysics_of_none h, hv]
  refine ⟨(iac_stop _ _ ?_ ?_).1, (iac_stop _ _ ?_ ?_).2, rfl⟩ <;>
    norm_num [FRICTION]

/-! ## C4: settling terminates in a bounded number of steps -/

/-- C4: with no pending target, after at most 46 physics steps (one step caps
the velocity at 15, then friction `0.88` shrinks it below the stop threshold
`0.05` in 45 more) the engine has zeroed the velocity and no longer schedules
frames, and it stays that way; in particular, in the §8 scenario — fling
velocity `(8, 0)`, friction 0.88, stop threshold 0.05, viewport 1200×800,
widget 320×280, anchor left — after 42 steps the velocity is exactly zero and
no further frame is scheduled. -/
theorem settling_termination :
    (∀ (b : Bounds) (s : PhysState), s.target = none →
      ∀ m : ℕ, 46 ≤ m →
        ((updatePhysics b)^[m] s).vel = ⟨0, 0⟩ ∧
        ((updatePhysics b)^[m] s).sched = false) ∧
    (((updatePhysics demoBounds)^[42] flingDemoState).vel = ⟨0, 0⟩ ∧
      ((updatePhysics demoBounds)^[42] flingDemoState).sched = false) := by
  constructor
  · intro b s htg m hm
    have base : ((updatePhysics b)^[46] s).vel = ⟨0, 0⟩ ∧
        ((updatePhysics b)^[46] s).sched = false ∧
        ((updatePhysics b)^[46] s).target = none := by
      have hb := iter_vel_bound b s htg 44
      have htg45 := iter_target_none b s htg 45
      have hup : (updatePhysics b)^[46] s =
          updatePhysics b ((updatePhysics b)^[45] s) :=
        Function.iterate_succ_apply' (updatePhysics b) 45 s
      have hb45 : |((updatePhysics b)^[45] s).vel.x| ≤ FRICTION ^ 44 * MAX_VELOCITY ∧
          |((updatePhysics b)^[45] s).vel.y| ≤ FRICTION ^ 44 * MAX_VELOCITY := hb
      have hnum : FRICTION * (FRICTION ^ 44 * MAX_VELOCITY) < 1 / 20 := by
        norm_num [FRICTION, MAX_VELOCITY]
      have hx : FRICTION * |((updatePhysics b)^[45] s).vel.x| < 1 / 20 :=
        lt_of_le_of_lt (mul_le_mul_of_nonneg_left hb45.1 (by norm_num [FRICTION])) hnum
      have hy : FRICTION * |((updatePhysics b)^[45] s).vel.y| < 1 / 20 :=
        lt_of_le_of_lt (mul_le_mul_of_nonneg_left hb45.2 (by norm_num [FRICTION])) hnum
      rw [hup, updatePhysics_of_none htg45]
      exact ⟨(iac_stop _ _ hx hy).1, (iac_stop _ _ hx hy).2, rfl⟩
    have main : ∀ m, 46 ≤ m →
        ((updatePhysics b)^[m] s).vel = ⟨0, 0⟩ ∧
        ((updatePhysics b)^[m] s).sched = false ∧
        ((updatePhysics b)^[m] s).target = none := by
      intro m hm
      induction m, hm using Nat.le_induction with
      | base => exact base
      | succ n hn ih =>
          rw [Function.iterate_succ_apply']
          obtain ⟨hv, hsch, htgn⟩ := ih
          exact step_absorb htgn hv
    exact ⟨(main m hm).1, (main m hm).2.1⟩
  · norm_num [Function.iterate_succ_apply, Function.iterate_zero_apply,
      updatePhysics, integrateAndClamp, springPos, springVelVec, springTarget,
      SnapCond, clampVelocity, bounceAxis, rat_abs_def, max_def, min_def,
      FRICTION, MAX_VELOCITY, BOUNCE_DAMPING, demoBounds, getViewportBounds,
      VIEWPORT_PADDING, flingDemoState, Vec2.mk.injEq, PhysState.mk.injEq]

/-- Witness for C4 at the §8 scenario state, for `m = 46`. -/
theorem settling_termination_witness :
    ((updatePhysics demoBounds)^[46] flingDemoState).vel = ⟨0, 0⟩ ∧
    ((updatePhysics demoBounds)^[46] flingDemoState).sched = false :=
  settling_termination.1 demoBounds flingDemoState rfl 46 (le_refl 46)

/-! ## Helper lemmas for spring convergence (C5)

Per axis, one unobstructed non-snap spring step maps the pair
`(e, v) = (pos − target, vel)` to `(linE e v, linV e v)`; the quadratic form
`lyap` contracts by a factor `19/25` under that map (the spectral radius of the
map is `√0.748 ≈ 0.865`, so `√(19/25) ≈ 0.872` leaves slack). -/

lemma lyap_decay (e v : ℚ) : lyap (linE e v) (linV e v) ≤ 19 / 25 * lyap e v := by
  unfold lyap linE linV
  nlinarith [sq_nonneg (112722492 * e + 171125100 * v), sq_nonneg v, sq_nonneg e]

lemma lyap_ge_esq (e v : ℚ) : e ^ 2 ≤ lyap e v := by
  unfold lyap
  nlinarith [sq_nonneg (40 * e + 369 * v), sq_nonneg v]

lemma lyap_ge_vsq (e v : ℚ) : 10 * v ^ 2 ≤ lyap e v := by
  unfold lyap
  nlinarith [sq_nonneg (240 * e + 369 * v), sq_nonneg v]

lemma lyap_nonneg (e v : ℚ) : 0 ≤ lyap e v :=
  le_trans (sq_nonneg e) (lyap_ge_esq e v)

lemma abs_lt_one_of_sq (e : ℚ) (h : e ^ 2 < 1 / 2) : |e| < 1 := by
  nlinarith [sq_abs e, abs_nonneg e]

lemma abs_lt_quarter_of_sq (v : ℚ) (h : v ^ 2 < 1 / 20) : |v| < 1 / 4 := by
  nlinarith [sq_abs v, abs_nonneg v]

lemma springVel_small {d v : ℚ} (hd : |d| < 1) (hv : |v| < 1 / 4) :
    |springVel d v| < 3 / 10 := by
  unfold springVel EYE_TRACKING_SPRING SPRING_DAMPING
  have h1 : |(v + d * (2 / 25)) * (17 / 20)| = |v + d * (2 / 25)| * (17 / 20) := by
    rw [abs_mul]
    norm_num
  have h2 : |v + d * (2 / 25)| ≤ |v| + |d| * (2 / 25) := by
    calc |v + d * (2 / 25)| ≤ |v| + |d * (2 / 25)| := abs_add _ _
      _ = |v| + |d| * (2 / 25) := by
          rw [abs_mul]
          norm_num
  rw [h1]
  nlinarith

lemma snapCond_of_small {u : PhysState} {t : Vec2} (ht : u.target = some t)
    (hx : lyap (u.pos.x - t.x) u.vel.x < 1 / 2)
    (hy : lyap (u.pos.y - t.y) u.vel.y < 1 / 2) :
    SnapCond u := by
  have hex : |u.pos.x - t.x| < 1 :=
    abs_lt_one_of_sq _ (lt_of_le_of_lt (lyap_ge_esq _ _) hx)
  have hey : |u.pos.y - t.y| < 1 :=
    abs_lt_one_of_sq _ (lt_of_le_of_lt (lyap_ge_esq _ _) hy)
  have hvx : |u.vel.x| < 1 / 4 := by
    refine abs_lt_quarter_of_sq _ ?_
    nlinarith [lyap_ge_vsq (u.pos.x - t.x) u.vel.x]
  have hvy : |u.vel.y| < 1 / 4 := by
    refine abs_lt_quarter_of_sq _ ?_
    nlinarith [lyap_ge_vsq (u.pos.y - t.y) u.vel.y]
  have hdx : |t.x - u.pos.x| < 1 := by rwa [abs_sub_comm]
  have hdy : |t.y - u.pos.y| < 1 := by rwa [abs_sub_comm]
  simp only [SnapCond, ht]
  exact ⟨hdx, hdy, springVel_small hdx hvx, springVel_small hdy hvy⟩

lemma physState_eq_of_fields {w : PhysState} {t : Vec2}
    (h1 : w.pos = t) (h2 : w.vel = ⟨0, 0⟩) (h3 : w.target = none)
    (h4 : w.sched = false) :
    w = { pos := t, vel := ⟨0, 0⟩, target := none, sched := false } := by
  cases w
  simp only [PhysState.mk.injEq]
  exact ⟨h1, h2, h3, h4⟩

lemma iac_pos_zero_vel {b : Bounds} {t : Vec2} (hbt : inBounds b t)
    (tg : Option Vec2) :
    (integrateAndClamp b t ⟨0, 0⟩ tg).pos = t := by
  obtain ⟨hb1, hb2, hb3, hb4⟩ := hbt
  simp only [integrateAndClamp, add_zero]
  rw [bounceAxis_id hb1 hb2, bounceAxis_id hb3 hb4]

lemma iac_full_stop {b : Bounds} {t : Vec2} (hbt : inBounds b t) :
    integrateAndClamp b t ⟨0, 0⟩ none =
      { pos := t, vel := ⟨0, 0⟩, target := none, sched := false } := by
  refine physState_eq_of_fields (iac_pos_zero_vel hbt none) (iac_vel_zero b t none)
    rfl ?_
  exact (iac_stop t ⟨0, 0⟩ (by norm_num [FRICTION]) (by norm_num [FRICTION])).2

lemma step_snap {b : Bounds} {u : PhysState} {t : Vec2} (ht : u.target = some t)
    (hs : SnapCond u) (hbt : inBounds b t) :
    updatePhysics b u = { pos := t, vel := ⟨0, 0⟩, target := none, sched := false } := by
  have hsp : springPos u = t := by simp [springPos, ht, hs]
  have hsv : springVelVec u = ⟨0, 0⟩ := by simp [springVelVec, ht, hs]
  have hst : springTarget u = none := by simp [springTarget, ht, hs]
  unfold updatePhysics
  rw [hsp, hsv, hst]
  exact iac_full_stop hbt

lemma step_terminal {b : Bounds} {t : Vec2} {u : PhysState} (hT : Terminal t u)
    (hbt : inBounds b t) :
    updatePhysics b u = { pos := t, vel := ⟨0, 0⟩, target := none, sched := false } := by
  obtain ⟨hpos, hvel, htg⟩ := hT
  rw [updatePhysics_of_none htg, hpos, hvel]
  exact iac_full_stop hbt

lemma iac_clean_eval {b : Bounds} (pos vel : Vec2) (t : Vec2)
    (h1 : |vel.x * FRICTION| ≤ MAX_VELOCITY) (h2 : |vel.y * FRICTION| ≤ MAX_VELOCITY)
    (h3 : b.minX ≤ pos.x + vel.x) (h4 : pos.x + vel.x ≤ b.maxX)
    (h5 : b.minY ≤ pos.y + vel.y) (h6 : pos.y + vel.y ≤ b.maxY) :
    integrateAndClamp b pos vel (some t) =
      { pos := ⟨pos.x + vel.x, pos.y + vel.y⟩
        vel := ⟨vel.x * FRICTION, vel.y * FRICTION⟩
        target := some t
        sched := true } := by
  simp only [integrateAndClamp]
  rw [clampVelocity_id h1, clampVelocity_id h2, bounceAxis_id h3 h4,
    bounceAxis_id h5 h6]
  rw [if_neg (fun hcon => Option.noConfusion hcon.2.2),
    if_neg (fun hcon => Option.noConfusion hcon.2.2)]
  simp [Option.isSome_some]

lemma step_lin {b : Bounds} {u : PhysState} {t : Vec2} (ht : u.target = some t)
    (hns : ¬ SnapCond u) (hc : StepClean b u) :
    (updatePhysics b u).target = some t ∧
    (updatePhysics b u).pos.x - t.x = linE (u.pos.x - t.x) u.vel.x ∧
    (updatePhysics b u).vel.x = linV (u.pos.x - t.x) u.vel.x ∧
    (updatePhysics b u).pos.y - t.y = linE (u.pos.y - t.y) u.vel.y ∧
    (updatePhysics b u).vel.y = linV (u.pos.y - t.y) u.vel.y := by
  have hsp : springPos u = u.pos := by simp [springPos, ht, hns]
  have hsv : springVelVec u =
      ⟨springVel (t.x - u.pos.x) u.vel.x, springVel (t.y - u.pos.y) u.vel.y⟩ := by
    simp [springVelVec, ht, hns]
  have hst : springTarget u = some t := by simp [springTarget, ht, hns]
  have hc' := hc
  unfold StepClean at hc'
  rw [hsp, hsv] at hc'
  dsimp only at hc'
  obtain ⟨h1, h2, h3, h4, h5, h6⟩ := hc'
  have hstep : updatePhysics b u = integrateAndClamp b u.pos
      ⟨springVel (t.x - u.pos.x) u.vel.x, springVel (t.y - u.pos.y) u.vel.y⟩
      (some t) := by
    unfold updatePhysics
    rw [hsp, hsv, hst]
  rw [hstep, iac_clean_eval u.pos
    ⟨springVel (t.x - u.pos.x) u.vel.x, springVel (t.y - u.pos.y) u.vel.y⟩
    t h1 h2 h3 h4 h5 h6]
  refine ⟨rfl, ?_, ?_, ?_, ?_⟩ <;>
    simp only [springVel, linE, linV, EYE_TRACKING_SPRING, SPRING_DAMPING,
      FRICTION] <;> ring

lemma spring_invariant (b : Bounds) (t : Vec2) (s : PhysState)
    (ht : s.target = some t) (hbt : inBounds b t) :
    ∀ n : ℕ, (∀ k < n, StepClean b ((updatePhysics b)^[k] s)) →
      (∃ m, m ≤ n ∧ Terminal t ((updatePhysics b)^[m] s)) ∨
      (((updatePhysics b)^[n] s).target = some t ∧
        lyap (((updatePhysics b)^[n] s).pos.x - t.x)
            (((updatePhysics b)^[n] s).vel.x) ≤
          (19 / 25) ^ n * lyap (s.pos.x - t.x) s.vel.x ∧
        lyap (((updatePhysics b)^[n] s).pos.y - t.y)
            (((updatePhysics b)^[n] s).vel.y) ≤
          (19 / 25) ^ n * lyap (s.pos.y - t.y) s.vel.y) := by
  intro n
  induction n with
  | zero =>
      intro _
      right
      simp only [Function.iterate_zero_apply, pow_zero, one_mul]
      exact ⟨ht, le_rfl, le_rfl⟩
  | succ n ih =>
      intro hclean
      have hclean' : ∀ k < n, StepClean b ((updatePhysics b)^[k] s) :=
        fun k hk => hclean k (Nat.lt_succ_of_lt hk)
      rcases ih hclean' with ⟨m, hm, hT⟩ | ⟨htg, hVx, hVy⟩
      · exact Or.inl ⟨m, Nat.le_succ_of_le hm, hT⟩
      · by_cases hsnap : SnapCond ((updatePhysics b)^[n] s)
        · left
          refine ⟨n + 1, le_refl _, ?_⟩
          rw [Function.iterate_succ_apply', step_snap htg hsnap hbt]
          exact ⟨rfl, rfl, rfl⟩
        · right
          have hcn := hclean n (Nat.lt_succ_self n)
          have hl := step_lin htg hsnap hcn
          rw [Function.iterate_succ_apply']
          refine ⟨hl.1, ?_, ?_⟩
          · rw [hl.2.1, hl.2.2.1]
            calc lyap (linE (((updatePhysics b)^[n] s).pos.x - t.x)
                    (((updatePhysics b)^[n] s).vel.x))
                  (linV (((updatePhysics b)^[n] s).pos.x - t.x)
                    (((updatePhysics b)^[n] s).vel.x))
                ≤ 19 / 25 * lyap (((updatePhysics b)^[n] s).pos.x - t.x)
                    (((updatePhysics b)^[n] s).vel.x) := lyap_decay _ _
              _ ≤ 19 / 25 * ((19 / 25) ^ n * lyap (s.pos.x - t.x) s.vel.x) :=
                  mul_le_mul_of_nonneg_left hVx (by norm_num)
              _ = (19 / 25) ^ (n + 1) * lyap (s.pos.x - t.x) s.vel.x := by ring
          · rw [hl.2.2.2.1, hl.2.2.2.2]
            calc lyap (linE (((updatePhysics b)^[n] s).pos.y - t.y)
                    (((updatePhysics b)^[n] s).vel.y))
                  (linV (((updatePhysics b)^[n] s).pos.y - t.y)
                    (((updatePhysics b)^[n] s).vel.y))
                ≤ 19 / 25 * lyap (((updatePhysics b)^[n] s).pos.y - t.y)
                    (((updatePhysics b)^[n] s).vel.y) := lyap_decay _ _
              _ ≤ 19 / 25 * ((19 / 25) ^ n * lyap (s.pos.y - t.y) s.vel.y) :=
                  mul_le_mul_of_nonneg_left hVy (by norm_num)
              _ = (19 / 25) ^ (n + 1) * lyap (s.pos.y - t.y) s.vel.y := by ring

lemma terminal_propagate (b : Bounds) (t : Vec2) (hbt : inBounds b t)
    (s : PhysState) (m : ℕ) (hT : Terminal t ((updatePhysics b)^[m] s)) :
    ∀ j, m < j → (updatePhysics b)^[j] s =
      { pos := t, vel := ⟨0, 0⟩, target := none, sched := false } := by
  have key : ∀ k, (updatePhysics b)^[m + 1 + k] s =
      { pos := t, vel := ⟨0, 0⟩, target := none, sched := false } := by
    intro k
    induction k with
    | zero =>
        rw [show m + 1 + 0 = m + 1 from rfl, Function.iterate_succ_apply']
        exact step_terminal hT hbt
    | succ k ihk =>
        rw [show m + 1 + (k + 1) = (m + 1 + k) + 1 from rfl,
          Function.iterate_succ_apply', ihk]
        exact step_terminal ⟨rfl, rfl, rfl⟩ hbt
  intro j hj
  obtain ⟨k, hk⟩ : ∃ k, j = m + 1 + k := ⟨j - (m + 1), by omega⟩
  rw [hk]
  exact key k

/-! ## C5: spring convergence and exact snap -/

/-- C5: for a pending target inside the bounds and a trajectory that neither
caps velocity nor touches the bounds (`StepClean`, the formal reading of "no
boundary obstruction"), once `n` is large enough that the contracted Lyapunov
value of both axes has fallen below `1/2` (which forces displacement and
velocity under the snap epsilons), the state at every step past `n` is exactly
the target with zero velocity, no pending target and no scheduled frame;
moreover any state whose displacements and spring-damped velocities are under
the snap epsilons is snapped in one step: position becomes exactly the target,
velocity zero, target cleared. -/
theorem spring_convergence_snap (b : Bounds) (t : Vec2) (s : PhysState) (n : ℕ)
    (ht : s.target = some t) (hbt : inBounds b t)
    (hVx : (19 / 25 : ℚ) ^ n * lyap (s.pos.x - t.x) s.vel.x < 1 / 2)
    (hVy : (19 / 25 : ℚ) ^ n * lyap (s.pos.y - t.y) s.vel.y < 1 / 2)
    (hclean : ∀ k < n, StepClean b ((updatePhysics b)^[k] s)) :
    (∀ u : PhysState, u.target = some t → SnapCond u →
      updatePhysics b u =
        { pos := t, vel := ⟨0, 0⟩, target := none, sched := false }) ∧
    ∀ m, n + 1 ≤ m → Terminal t ((updatePhysics b)^[m] s) ∧
      ((updatePhysics b)^[m] s).sched = false := by
  refine ⟨fun u hu hsu => step_snap hu hsu hbt, ?_⟩
  have hfull : ∃ m0, m0 ≤ n + 1 ∧ (updatePhysics b)^[m0] s =
      { pos := t, vel := ⟨0, 0⟩, target := none, sched := false } := by
    rcases spring_invariant b t s ht hbt n hclean with ⟨m, hm, hT⟩ | ⟨htg, hVx', hVy'⟩
    · refine ⟨m + 1, by omega, ?_⟩
      rw [Function.iterate_succ_apply']
      exact step_terminal hT hbt
    · have hsnap : SnapCond ((updatePhysics b)^[n] s) :=
        snapCond_of_small htg (lt_of_le_of_lt hVx' hVx) (lt_of_le_of_lt hVy' hVy)
      refine ⟨n + 1, le_refl _, ?_⟩
      rw [Function.iterate_succ_apply']
      exact step_snap htg hsnap hbt
  intro m hm
  obtain ⟨m0, hm0, hfe⟩ := hfull
  rcases eq_or_lt_of_le (le_trans hm0 hm) with heq | hlt
  · rw [← heq, hfe]
    exact ⟨⟨rfl, rfl, rfl⟩, rfl⟩
  · rw [terminal_propagate b t hbt s m0 (by rw [hfe]; exact ⟨rfl, rfl, rfl⟩) m hlt]
    exact ⟨⟨rfl, rfl, rfl⟩, rfl⟩

/-- Witness for C5: anchored-left §8 bounds, target `(100, 0)`, start `(102, 0)`
at rest; with `n = 9` the decay bound and cleanliness hold concretely, and the
state after 10 steps is exactly the target, at rest, with nothing pending. -/
theorem spring_convergence_snap_witness :
    Terminal ⟨100, 0⟩ ((updatePhysics demoBounds)^[10]
      ⟨⟨102, 0⟩, ⟨0, 0⟩, some ⟨100, 0⟩, true⟩) ∧
    ((updatePhysics demoBounds)^[10]
      ⟨⟨102, 0⟩, ⟨0, 0⟩, some ⟨100, 0⟩, true⟩).sched = false :=
  (spring_convergence_snap demoBounds ⟨100, 0⟩
      ⟨⟨102, 0⟩, ⟨0, 0⟩, some ⟨100, 0⟩, true⟩ 9 rfl
      (by norm_num [inBounds, demoBounds, getViewportBounds, VIEWPORT_PADDING])
      (by norm_num [lyap])
      (by norm_num [lyap])
      (by
        intro k hk
        interval_cases k <;>
          norm_num [Function.iterate_succ_apply, Function.iterate_zero_apply,
            StepClean, updatePhysics, integrateAndClamp, springPos, springVelVec,
            springTarget, SnapCond, springVel, clampVelocity, bounceAxis,
            rat_abs_def, max_def, min_def, FRICTION, MAX_VELOCITY, BOUNCE_DAMPING,
            EYE_TRACKING_SPRING, SPRING_DAMPING, demoBounds, getViewportBounds,
            VIEWPORT_PADDING, Vec2.mk.injEq, PhysState.mk.injEq])).2
    10 (by norm_num)

/-! ## C9: velocity cap and velocity resets

The claim says the velocity is capped at 15 px/frame at all times, including
the fling velocity stored during drag.  The cap is only applied inside
`updatePhysics` (lines 261-262); the fling velocity written by
`handleDragMove` (lines 458-463) is stored uncapped, as is the seed velocity
of the side-change effect, so between that write and the next physics step the
stored velocity can exceed the cap. -/

/-- Counterexample to C9 as stated: a drag sample that moved 1000 px in 1 ms
stores a fling velocity component far above `MAX_VELOCITY = 15`. -/
theorem fling_velocity_exceeds_cap :
    MAX_VELOCITY < (flingVelocity 1000 0 1).x := by
  norm_num [flingVelocity, MAX_VELOCITY]

/-- C9 (amended): every physics step caps each velocity component at
`MAX_VELOCITY` in magnitude, and velocity is reset to exactly zero on drag
start, on resize start, and by the gaze-target snap; the fling velocity stored
during a drag move is, however, not capped at assignment (see
`fling_velocity_exceeds_cap`). -/
theorem velocity_cap_and_resets (b : Bounds) (u : PhysState) :
    |(updatePhysics b u).vel.x| ≤ MAX_VELOCITY ∧
    |(updatePhysics b u).vel.y| ≤ MAX_VELOCITY ∧
    (handleDragStartState u).vel = ⟨0, 0⟩ ∧
    (handleResizeStartState u).vel = ⟨0, 0⟩ ∧
    (SnapCond u → (updatePhysics b u).vel = ⟨0, 0⟩) :=
  ⟨(iac_vel_cap b (springPos u) (springVelVec u) (springTarget u)).1,
   (iac_vel_cap b (springPos u) (springVelVec u) (springTarget u)).2,
   rfl, rfl, fun hs => updatePhysics_vel_snap hs⟩

/-- Witness for C9 (amended): the snap of a state already at its target zeroes
the velocity. -/
theorem velocity_cap_and_resets_witness :
    (updatePhysics demoBounds ⟨⟨0, 0⟩, ⟨0, 0⟩, some ⟨0, 0⟩, true⟩).vel = ⟨0, 0⟩ :=
  (velocity_cap_and_resets demoBounds ⟨⟨0, 0⟩, ⟨0, 0⟩, some ⟨0, 0⟩, true⟩).2.2.2.2
    (by norm_num [SnapCond, springVel, EYE_TRACKING_SPRING, SPRING_DAMPING])

/-! ## Helper lemmas for the cursor-entry policy -/

lemma fireIfDue_none {s : PolicyState} (h : s.pending = none) (t : ℚ) :
    fireIfDue t s = s := by
  simp only [fireIfDue, h]

lemma fireIfDue_prev (t : ℚ) (s : PolicyState) :
    (fireIfDue t s).prev = s.prev := by
  unfold fireIfDue
  cases hp : s.pending with
  | none => rfl
  | some d =>
      dsimp only
      split_ifs <;> rfl

lemma fireIfDue_finalCount (t : ℚ) (s : PolicyState) :
    finalCount (fireIfDue t s) = finalCount s := by
  unfold fireIfDue
  cases hp : s.pending with
  | none => rfl
  | some d =>
      dsimp only
      split_ifs with h
      · simp [finalCount, hp]
      · rfl

lemma runTrace_in_zone (pip : Side) :
    ∀ (es : List (ℚ × Option Side)) (s : PolicyState),
      s.prev = some pip → (∀ e ∈ es, e.2 = some pip) →
      finalCount (runTrace pip s es) = finalCount s ∧
      (runTrace pip s es).prev = some pip := by
  intro es
  induction es with
  | nil =>
      intro s hprev _
      exact ⟨rfl, hprev⟩
  | cons e es ih =>
      intro s hprev hall
      have hz : e.2 = some pip := hall e (List.mem_cons_self e es)
      have hms : moveSample pip s e.1 e.2 = { fireIfDue e.1 s with prev := e.2 } := by
        simp only [moveSample]
        rw [if_neg]
        rintro ⟨hne, -⟩
        exact hne (by rw [fireIfDue_prev, hprev])
      simp only [runTrace]
      rw [hms]
      have ih' := ih { fireIfDue e.1 s with prev := e.2 }
        (by simpa using hz) (fun e' he' => hall e' (List.mem_cons_of_mem e he'))
      refine ⟨?_, ih'.2⟩
      rw [ih'.1]
      show finalCount { fireIfDue e.1 s with prev := e.2 } = finalCount s
      rw [show finalCount { fireIfDue e.1 s with prev := e.2 } =
        finalCount (fireIfDue e.1 s) from rfl]
      exact fireIfDue_finalCount e.1 s

lemma runTrace_window_inv (pip : Side) (t0 : ℚ) (c0 : ℕ) :
    ∀ (es : List (ℚ × Option Side)) (s : PolicyState),
      (∀ e ∈ es, t0 ≤ e.1 ∧ e.1 < t0 + DEBOUNCE_MS) →
      s.count = c0 →
      (s.pending = none ∨ ∃ d, s.pending = some d ∧ t0 + DEBOUNCE_MS ≤ d) →
      (runTrace pip s es).count = c0 ∧
      ((runTrace pip s es).pending = none ∨
        ∃ d, (runTrace pip s es).pending = some d ∧ t0 + DEBOUNCE_MS ≤ d) := by
  intro es
  induction es with
  | nil =>
      intro s _ hc hp
      exact ⟨hc, hp⟩
  | cons e es ih =>
      intro s hall hc hp
      have he := hall e (List.mem_cons_self e es)
      have hfire : fireIfDue e.1 s = s := by
        rcases hp with hnone | ⟨d, hd, hdge⟩
        · exact fireIfDue_none hnone e.1
        · simp only [fireIfDue, hd]
          rw [if_neg (by linarith [he.2])]
      simp only [runTrace]
      apply ih (moveSample pip s e.1 e.2)
        (fun e' he' => hall e' (List.mem_cons_of_mem e he'))
      · show (moveSample pip s e.1 e.2).count = c0
        simp only [moveSample]
        rw [hfire]
        split_ifs <;> exact hc
      · show (moveSample pip s e.1 e.2).pending = none ∨ _
        simp only [moveSample]
        rw [hfire]
        split_ifs with htrig
        · exact Or.inr ⟨e.1 + DEBOUNCE_MS, rfl, by linarith [he.1]⟩
        · rcases hp with hnone | ⟨d, hd, hdge⟩
          · exact Or.inl hnone
          · exact Or.inr ⟨d, hd, hdge⟩

/-! ## C7: cursor-entry edge detection

The claim's no-command scenario for a cursor that is already inside the
widget's zone fails on the very first sample after tracking starts:
`prevCursorSideRef` is initialized to `null` (line 44), so the first sample
inside the widget's zone registers as an entry edge and schedules a command. -/

/-- Counterexample to C7 as stated: from the initial policy state, a single
sample already inside the widget's zone (no prior sample outside it) schedules
one debounced command, so "a cursor already inside the zone that stays there
triggers no command" fails on the first sample. -/
theorem cursor_entry_first_sample_counterexample :
    ¬ (∀ (pip : Side) (es : List (ℚ × Option Side)),
        (∀ e ∈ es, e.2 = some pip) →
        finalCount (runTrace pip initPolicy es) = 0) := by
  intro hcl
  have h := hcl .left [(0, some .left)] (by
    intro e he
    rw [List.mem_singleton] at he
    subst he
    rfl)
  have h1 : finalCount (runTrace .left initPolicy [(0, some .left)]) = 1 := by
    simp [runTrace, moveSample, fireIfDue, initPolicy, finalCount]
  rw [h] at h1
  exact absurd h1 (by norm_num)

/-- C7 (amended): once a sample has been seen (`prev` is known), the
edge-detection behaves as specified — with no suppression active:
a cursor whose previous sample was already in the widget's zone and which
stays in that zone adds no command; a cursor whose previous sample was outside
the zone and which then enters and stays produces exactly one debounced
command; and any burst of samples contained in one 150 ms debounce window adds
at most one command.  (Only the very first sample after tracking starts
deviates from the claim, because the previous side starts out `null`; see the
counterexample.) -/
theorem cursor_entry_edge_detection :
    (∀ (pip : Side) (s0 : PolicyState) (es : List (ℚ × Option Side)),
      s0.prev = some pip → s0.pending = none →
      (∀ e ∈ es, e.2 = some pip) →
      finalCount (runTrace pip s0 es) = s0.count) ∧
    (∀ (pip : Side) (s0 : PolicyState) (t : ℚ) (es : List (ℚ × Option Side)),
      s0.prev ≠ some pip → s0.pending = none →
      (∀ e ∈ es, e.2 = some pip) →
      finalCount (runTrace pip s0 ((t, some pip) :: es)) = s0.count + 1) ∧
    (∀ (pip : Side) (s0 : PolicyState) (t0 : ℚ) (es : List (ℚ × Option Side)),
      s0.pending = none →
      (∀ e ∈ es, t0 ≤ e.1 ∧ e.1 < t0 + DEBOUNCE_MS) →
      finalCount (runTrace pip s0 es) ≤ s0.count + 1) := by
  refine ⟨?_, ?_, ?_⟩
  · intro pip s0 es hprev hpend hall
    rw [(runTrace_in_zone pip es s0 hprev hall).1]
    simp [finalCount, hpend]
  · intro pip s0 t es hprev hpend hall
    have h1 : moveSample pip s0 t (some pip) =
        { s0 with pending := some (t + DEBOUNCE_MS), prev := some pip } := by
      simp only [moveSample]
      rw [fireIfDue_none hpend t, if_pos ⟨hprev, trivial⟩]
    simp only [runTrace]
    rw [h1]
    rw [(runTrace_in_zone pip es _ rfl hall).1]
    simp [finalCount]
  · intro pip s0 t0 es hpend hall
    have k := runTrace_window_inv pip t0 s0.count es s0 hall rfl (Or.inl hpend)
    unfold finalCount
    rw [k.1]
    rcases k.2 with hnone | ⟨d, hd, -⟩
    · simp [hnone]
    · simp [hd]

/-- Witness for C7 (amended) on concrete traces: staying inside adds no
command, entering from outside adds exactly one, and a burst inside one
debounce window adds at most one. -/
theorem cursor_entry_edge_detection_witness :
    finalCount (runTrace .left ⟨some .left, none, 0⟩
      [(0, some .left), (10, some .left)]) = 0 ∧
    finalCount (runTrace .left initPolicy [(5, some .left)]) = 1 ∧
    finalCount (runTrace .right ⟨none, none, 3⟩
      [(0, some .right), (100, none), (149, some .right)]) ≤ 4 :=
  ⟨cursor_entry_edge_detection.1 .left ⟨some .left, none, 0⟩
      [(0, some .left), (10, some .left)] rfl rfl (by simp),
   cursor_entry_edge_detection.2.1 .left initPolicy 5 []
      (by simp [initPolicy]) rfl (by simp),
   cursor_entry_edge_detection.2.2 .right ⟨none, none, 3⟩ 0
      [(0, some .right), (100, none), (149, some .right)] rfl
      (by norm_num [DEBOUNCE_MS])⟩

/-! ## C10: the reported zone always carries a definite side -/

/-- C10: both widget-zone reports (the per-frame `updateDOM` report and the
`handleDragEnd` report) carry a side that is always left or right, and when
the widget center lies in the middle horizontal third the current anchor side
is reported unchanged. -/
theorem reported_side_never_null (side : Side) (posX pipWidth viewportWidth : ℚ)
    (b : Bounds) (pos : Vec2) :
    (reportedSide side posX pipWidth viewportWidth = .left ∨
      reportedSide side posX pipWidth viewportWidth = .right) ∧
    (viewportWidth / 3 ≤ pipCenterX side posX pipWidth viewportWidth →
      pipCenterX side posX pipWidth viewportWidth ≤ viewportWidth * 2 / 3 →
      reportedSide side posX pipWidth viewportWidth = side) ∧
    (dragEndReportedSide b side pos pipWidth viewportWidth = .left ∨
      dragEndReportedSide b side pos pipWidth viewportWidth = .right) ∧
    (viewportWidth / 3 ≤ pipCenterX side (clampPosition b pos).x pipWidth viewportWidth →
      pipCenterX side (clampPosition b pos).x pipWidth viewportWidth ≤ viewportWidth * 2 / 3 →
      dragEndReportedSide b side pos pipWidth viewportWidth = side) := by
  have hside : ∀ s : Side, s = .left ∨ s = .right := by
    intro s
    cases s
    · exact Or.inl rfl
    · exact Or.inr rfl
  have hmid : ∀ (sd : Side) (px : ℚ),
      viewportWidth / 3 ≤ pipCenterX sd px pipWidth viewportWidth →
      pipCenterX sd px pipWidth viewportWidth ≤ viewportWidth * 2 / 3 →
      reportedSide sd px pipWidth viewportWidth = sd := by
    intro sd px h1 h2
    simp only [reportedSide]
    rw [if_neg (not_lt.mpr h1), if_neg (not_lt.mpr h2)]
  exact ⟨hside _, hmid side posX, hside _, fun h1 h2 => hmid side _ h1 h2⟩

/-- Witness for C10: anchor left, widget 320 wide, viewport 1200, stored x 300
puts the center at 484, inside the middle third, and both reports keep `left`. -/
theorem reported_side_never_null_witness :
    reportedSide .left 300 320 1200 = .left ∧
    dragEndReportedSide demoBounds .left ⟨300, 0⟩ 320 1200 = .left :=
  ⟨(reported_side_never_null .left 300 320 1200 demoBounds ⟨300, 0⟩).2.1
     (by norm_num [pipCenterX, VIEWPORT_PADDING])
     (by norm_num [pipCenterX, VIEWPORT_PADDING]),
   (reported_side_never_null .left 300 320 1200 demoBounds ⟨300, 0⟩).2.2.2
     (by norm_num [pipCenterX, VIEWPORT_PADDING, clampPosition, demoBounds,
        getViewportBounds])
     (by norm_num [pipCenterX, VIEWPORT_PADDING, clampPosition, demoBounds,
        getViewportBounds])⟩

end EyeOverlay
